import Mathlib

/-!
Verification of the PII detection/anonymization core of the repository
(`pdf-pii-anonymizer`), shallowly embedded in Lean.

Conventions of the embedding:
* Running text (`str` in Python) is represented as `List Char`; Python's
  slice `text[a:b]` (with `0 ≤ a ≤ b`) is `(text.drop a).take (b - a)`,
  and the splices `text[:a]` / `text[b:]` are `text.take a` / `text.drop b`,
  which share Python's clamping behaviour for indices past the end.
* Confidence scores (`float` in Python) are represented as `ℚ`; no claim
  under study depends on floating-point rounding.
* Python's `sorted` (a stable sort) is modelled by Mathlib's stable
  `List.insertionSort` with the corresponding key relation.
* The Presidio analyzer engine is an external library; it is modelled as an
  abstract function `List Char → List RecognizerResult` supplied to
  `detect`, with the engine's documented `score_threshold` behaviour
  (results whose score is below the threshold are dropped) made explicit.
* The Faker generators are external randomized code; the generator table is
  modelled by its key set plus an abstract function `gen : Nat → String →
  List Char` giving the value produced by the k-th generator invocation.
-/

namespace PdfPii

/-- From `pii_types.py`: categories of PII (the Python enum's string values
are not used by any code under study and are omitted). -/
inductive PIICategory where
  | GOVERNMENT_ID
  | FINANCIAL
  | PERSONAL
  | CONTACT
  | MEDICAL
  | DIGITAL
  | VEHICLE
  | EMPLOYMENT
  | EDUCATION
  | MILITARY
deriving DecidableEq, Inhabited

/-- From `pii_types.py`: definition of a PII type with metadata. -/
structure PIIType where
  name : String
  code : String
  category : PIICategory
  description : String
  regex_pattern : Option String := none
  presidio_entity : Option String := none
  requires_custom_recognizer : Bool := false
deriving DecidableEq, Inhabited

/-- From `pii_types.py`: the 27 `US_PII_TYPES` entries, transcribed field by
field (brace and apostrophe characters in string literals are written with
`\xNN` escapes; the strings are identical to the source's). -/
def US_PII_TYPES : List PIIType := [
  { name := "Social Security Number", code := "SSN", category := .GOVERNMENT_ID,
    description := "9-digit US Social Security Number",
    regex_pattern := some "\\b(?!000|666|9\\d\x7b2\x7d)\\d\x7b3\x7d[-\\s]?(?!00)\\d\x7b2\x7d[-\\s]?(?!0000)\\d\x7b4\x7d\\b",
    presidio_entity := some "US_SSN" },
  { name := "Driver\x27s License Number", code := "DRIVERS_LICENSE", category := .GOVERNMENT_ID,
    description := "State-issued driver\x27s license number",
    presidio_entity := some "US_DRIVER_LICENSE" },
  { name := "Passport Number", code := "PASSPORT", category := .GOVERNMENT_ID,
    description := "US Passport number",
    regex_pattern := some "\\b[A-Z]?\\d\x7b8,9\x7d\\b",
    presidio_entity := some "US_PASSPORT",
    requires_custom_recognizer := true },
  { name := "State ID Number", code := "STATE_ID", category := .GOVERNMENT_ID,
    description := "State-issued identification number",
    requires_custom_recognizer := true },
  { name := "Individual Taxpayer Identification Number", code := "ITIN", category := .GOVERNMENT_ID,
    description := "IRS-issued ITIN for tax processing",
    regex_pattern := some "\\b9\\d\x7b2\x7d[-\\s]?[7-9]\\d[-\\s]?\\d\x7b4\x7d\\b",
    presidio_entity := some "US_ITIN" },
  { name := "Bank Account Number", code := "BANK_ACCOUNT", category := .FINANCIAL,
    description := "Bank account number",
    regex_pattern := some "\\b\\d\x7b8,17\x7d\\b",
    presidio_entity := some "US_BANK_NUMBER" },
  { name := "Credit Card Number", code := "CREDIT_CARD", category := .FINANCIAL,
    description := "Credit card number (Visa, MasterCard, Amex, etc.)",
    presidio_entity := some "CREDIT_CARD" },
  { name := "Debit Card Number", code := "DEBIT_CARD", category := .FINANCIAL,
    description := "Debit card number",
    presidio_entity := some "CREDIT_CARD" },
  { name := "Financial Account Number", code := "FINANCIAL_ACCOUNT", category := .FINANCIAL,
    description := "Generic financial account number (brokerage, investment, etc.)",
    regex_pattern := some "\\b[A-Z]\x7b0,3\x7d\\d\x7b6,12\x7d\\b",
    requires_custom_recognizer := true },
  { name := "Full Name", code := "PERSON_NAME", category := .PERSONAL,
    description := "Full legal name (first, middle, last)",
    presidio_entity := some "PERSON" },
  { name := "Date of Birth", code := "DATE_OF_BIRTH", category := .PERSONAL,
    description := "Date of birth in various formats",
    presidio_entity := some "DATE_TIME",
    requires_custom_recognizer := true },
  { name := "Place of Birth", code := "PLACE_OF_BIRTH", category := .PERSONAL,
    description := "City/state/country of birth",
    presidio_entity := some "LOCATION",
    requires_custom_recognizer := true },
  { name := "Mother\x27s Maiden Name", code := "MOTHERS_MAIDEN_NAME", category := .PERSONAL,
    description := "Mother\x27s maiden name (security question)",
    requires_custom_recognizer := true },
  { name := "Email Address", code := "EMAIL", category := .CONTACT,
    description := "Email address",
    presidio_entity := some "EMAIL_ADDRESS" },
  { name := "Phone Number", code := "PHONE", category := .CONTACT,
    description := "Phone number (mobile, home, work)",
    presidio_entity := some "PHONE_NUMBER" },
  { name := "Physical Address", code := "ADDRESS", category := .CONTACT,
    description := "Street address, city, state, ZIP code",
    presidio_entity := some "LOCATION",
    requires_custom_recognizer := true },
  { name := "IP Address", code := "IP_ADDRESS", category := .DIGITAL,
    description := "IPv4 or IPv6 address",
    presidio_entity := some "IP_ADDRESS" },
  { name := "Medical Record Number", code := "MEDICAL_RECORD", category := .MEDICAL,
    description := "Hospital/clinic medical record number",
    regex_pattern := some "\\b(?:MRN|MR#?|Medical Record)[:\\s#]*\\d\x7b6,12\x7d\\b",
    presidio_entity := some "MEDICAL_LICENSE",
    requires_custom_recognizer := true },
  { name := "Health Insurance ID", code := "HEALTH_INSURANCE_ID", category := .MEDICAL,
    description := "Health insurance policy/member ID",
    regex_pattern := some "\\b[A-Z]\x7b3\x7d\\d\x7b9,12\x7d\\b",
    requires_custom_recognizer := true },
  { name := "Biometric Data", code := "BIOMETRIC", category := .PERSONAL,
    description := "Fingerprint, facial recognition, retina scan data",
    requires_custom_recognizer := true },
  { name := "Vehicle Registration Number", code := "VEHICLE_REGISTRATION", category := .VEHICLE,
    description := "Vehicle registration/title number",
    regex_pattern := some "\\b[A-Z0-9]\x7b6,17\x7d\\b",
    requires_custom_recognizer := true },
  { name := "License Plate Number", code := "LICENSE_PLATE", category := .VEHICLE,
    description := "Vehicle license plate number",
    regex_pattern := some "\\b[A-Z0-9]\x7b2,8\x7d\\b",
    requires_custom_recognizer := true },
  { name := "Digital Signature", code := "DIGITAL_SIGNATURE", category := .DIGITAL,
    description := "Electronic/digital signature",
    requires_custom_recognizer := true },
  { name := "Username/Password", code := "CREDENTIALS", category := .DIGITAL,
    description := "Login credentials",
    regex_pattern := some "(?:password|pwd|pass)[:\\s]*[^\\s]+",
    requires_custom_recognizer := true },
  { name := "Employee ID", code := "EMPLOYEE_ID", category := .EMPLOYMENT,
    description := "Employer-assigned employee identification number",
    regex_pattern := some "\\b(?:EMP|Employee)[:\\s#]*\\d\x7b4,10\x7d\\b",
    requires_custom_recognizer := true },
  { name := "Student ID", code := "STUDENT_ID", category := .EDUCATION,
    description := "School/university student identification number",
    regex_pattern := some "\\b(?:Student|SID)[:\\s#]*\\d\x7b5,12\x7d\\b",
    requires_custom_recognizer := true },
  { name := "Military ID", code := "MILITARY_ID", category := .MILITARY,
    description := "Military service identification number (DoD ID)",
    regex_pattern := some "\\b\\d\x7b10\x7d\\b",
    requires_custom_recognizer := true }
]

/-- From `pii_types.py`: `PII_TYPE_MAP = {pii.code: pii for pii in US_PII_TYPES}`.
The Python dict is modelled as an association list; the 27 codes are pairwise
distinct (`PII_TYPE_MAP_keys_nodup` below), so first-key lookup agrees with
Python's dict semantics. -/
def PII_TYPE_MAP : List (String × PIIType) :=
  US_PII_TYPES.map (fun pii => (pii.code, pii))

/-- From `detector.py`: a detected PII instance in text. The Python field
`end` is rendered `end_` (Lean keyword). -/
structure PIIMatch where
  entity_type : String
  text : List Char
  start : Nat
  end_ : Nat
  score : ℚ
  pii_type : Option PIIType := none
deriving DecidableEq, Inhabited

/-- From `detector.py` (`PIIMatch.__post_init__`): construction of a
`PIIMatch` with the default `pii_type=None` resolves the type metadata via
`PII_TYPE_MAP.get(self.entity_type)`. -/
def PIIMatch.make (entity_type : String) (text : List Char) (start end_ : Nat)
    (score : ℚ) : PIIMatch :=
  { entity_type := entity_type, text := text, start := start, end_ := end_,
    score := score, pii_type := PII_TYPE_MAP.lookup entity_type }

/-- From `detector.py`: result of PII detection on a text. The Python
`set[str]` field is modelled as a duplicate-free list in insertion order. -/
structure DetectionResult where
  text : List Char
  matches_ : List PIIMatch
  total_pii_count : Nat
  pii_types_found : List String
deriving DecidableEq, Inhabited

/-- From `detector.py`: `DetectionResult.has_pii`. -/
def DetectionResult.has_pii (r : DetectionResult) : Bool :=
  decide (0 < r.total_pii_count)

/-- A raw result of the external Presidio `analyzer.analyze` call:
entity type, span and score (`presidio_analyzer.RecognizerResult`). -/
structure RecognizerResult where
  entity_type : String
  start : Nat
  end_ : Nat
  score : ℚ
deriving DecidableEq, Inhabited

/-- ASCII whitespace as recognized by Python's `str.strip()` (the further
Unicode whitespace code points are irrelevant to the claims and omitted). -/
def isPythonSpace (c : Char) : Bool :=
  c == ' ' || c == '\t' || c == '\n' || c == '\r' || c == '\x0b' || c == '\x0c'

/-- Python's `str.strip()`: remove leading and trailing whitespace. -/
def pyStrip (s : List Char) : List Char :=
  ((s.dropWhile isPythonSpace).reverse.dropWhile isPythonSpace).reverse

/-- Ascending-by-`start` key relation of `matches.sort(key=lambda m: m.start)`
in `detector.py`. -/
def startLE (a b : PIIMatch) : Prop := a.start ≤ b.start

/-- Descending-by-`start` key relation of
`sorted(matches, key=lambda m: m.start, reverse=True)` in `anonymizer.py`. -/
def startGE (a b : PIIMatch) : Prop := b.start ≤ a.start

instance : DecidableRel startLE := fun a b => inferInstanceAs (Decidable (a.start ≤ b.start))

instance : DecidableRel startGE := fun a b => inferInstanceAs (Decidable (b.start ≤ a.start))

instance : IsTotal PIIMatch startLE := ⟨fun a b => Nat.le_total a.start b.start⟩

instance : IsTrans PIIMatch startLE := ⟨fun _ _ _ h h' => Nat.le_trans h h'⟩

instance : IsTotal PIIMatch startGE := ⟨fun a b => Nat.le_total b.start a.start⟩

instance : IsTrans PIIMatch startGE := ⟨fun _ _ _ h h' => Nat.le_trans h' h⟩

/-- From `detector.py` (`PIIDetector.detect`, lines 135-186).  Empty or
whitespace-only text short-circuits to an empty result before the analyzer
is consulted; an uninitialized analyzer (`load_spacy_model=False`) raises
`RuntimeError`, modelled by the `Except.error` branch; otherwise the
analyzer's results (filtered by the engine to scores reaching
`score_threshold`) are turned into `PIIMatch`es, the found-types set is
accumulated, and the match list is stably sorted ascending by `start`. -/
def detect (analyzer : Option (List Char → List RecognizerResult))
    (score_threshold : ℚ) (text : List Char) : Except String DetectionResult :=
  if text.isEmpty || (pyStrip text).isEmpty then
    .ok { text := text, matches_ := [], total_pii_count := 0, pii_types_found := [] }
  else
    match analyzer with
    | none => .error "Analyzer not initialized. Set load_spacy_model=True."
    | some analyze =>
      let results := (analyze text).filter (fun r => score_threshold ≤ r.score)
      let matches_ := results.map (fun r =>
        PIIMatch.make r.entity_type ((text.drop r.start).take (r.end_ - r.start))
          r.start r.end_ r.score)
      let pii_types_found := results.foldl
        (fun s r => if r.entity_type ∈ s then s else s ++ [r.entity_type]) []
      .ok { text := text, matches_ := List.insertionSort startLE matches_,
            total_pii_count := matches_.length, pii_types_found := pii_types_found }

/-- From `anonymizer.py`: result of PII anonymization.  The per-replacement
Python dicts (fixed-shape: entity type, original value, replacement value,
position, confidence score) are modelled by the `ReplacementInfo`
structure below. -/
structure ReplacementInfo where
  entity_type : String
  original_value : List Char
  replacement_value : List Char
  pos_start : Nat
  pos_end : Nat
  confidence_score : ℚ
deriving DecidableEq, Inhabited

/-- From `anonymizer.py`: `AnonymizationResult`. -/
structure AnonymizationResult where
  original_text : List Char
  anonymized_text : List Char
  replacements : List ReplacementInfo
  total_replacements : Nat
deriving DecidableEq, Inhabited

/-- The 29 keys of `PIIAnonymizer._build_replacement_generators`; the Faker
lambdas stored under them are external randomized code, abstracted by the
`gen` argument threaded through the operations below. -/
def replacement_generator_keys : List String := [
  "PERSON", "EMAIL_ADDRESS", "PHONE_NUMBER", "US_SSN", "US_DRIVER_LICENSE",
  "CREDIT_CARD", "US_BANK_NUMBER", "US_ITIN", "IP_ADDRESS", "LOCATION",
  "DATE_TIME", "URL", "US_PASSPORT", "STATE_ID", "MEDICAL_RECORD",
  "HEALTH_INSURANCE_ID", "EMPLOYEE_ID", "STUDENT_ID", "MILITARY_ID",
  "VEHICLE_REGISTRATION", "LICENSE_PLATE", "CREDENTIALS", "US_ADDRESS",
  "DATE_OF_BIRTH", "MOTHERS_MAIDEN_NAME", "FINANCIAL_ACCOUNT", "NRP",
  "MEDICAL_LICENSE", "IBAN_CODE"]

/-- From `anonymizer.py` (`PIIAnonymizer._generate_replacement`, lines
169-182): look up the generator for the entity type and call it (`gen k
entity_type` models the value the Faker-backed generator produces on the
k-th generator invocation); with no registered generator, return the
placeholder `[REDACTED_<entity_type>]`. -/
def generate_replacement (gen : Nat → String → List Char) (k : Nat)
    (entity_type : String) : List Char :=
  if entity_type ∈ replacement_generator_keys then gen k entity_type
  else ("[REDACTED_" ++ entity_type ++ "]").toList

/-- Loop body of `anonymize` (loop state: anonymized text so far, record
list so far, number of generator calls made): generate a fake value for the
match, splice it over the match span, and append the replacement record. -/
def anonStep (gen : Nat → String → List Char)
    (st : List Char × List ReplacementInfo × Nat) (m : PIIMatch) :
    List Char × List ReplacementInfo × Nat :=
  let fake_value := generate_replacement gen st.2.2 m.entity_type
  (st.1.take m.start ++ fake_value ++ st.1.drop m.end_,
   st.2.1 ++ [{ entity_type := m.entity_type, original_value := m.text,
                replacement_value := fake_value, pos_start := m.start,
                pos_end := m.end_, confidence_score := m.score }],
   st.2.2 + 1)

/-- Loop body of `anonymize_text` (loop state: result text, number of
generator calls made). -/
def atStep (gen : Nat → String → List Char) (st : List Char × Nat)
    (m : PIIMatch) : List Char × Nat :=
  (st.1.take m.start ++ generate_replacement gen st.2 m.entity_type
     ++ st.1.drop m.end_, st.2 + 1)

/-- Loop body of `get_replacement_mapping`: generate a replacement only for
original values not yet present as keys. -/
def grmStep (gen : Nat → String → List Char)
    (st : List (List Char × List Char) × Nat) (m : PIIMatch) :
    List (List Char × List Char) × Nat :=
  if (st.1.lookup m.text).isSome then st
  else (st.1 ++ [(m.text, generate_replacement gen st.2 m.entity_type)],
        st.2 + 1)

/-- From `anonymizer.py` (`PIIAnonymizer.anonymize`, lines 119-167): if the
detection result reports no PII, return the text unchanged with an empty
ledger; otherwise sort the matches by descending start (stably), splice in a
freshly generated replacement per match (`text[:start] + fake + text[end:]`),
append one replacement record per match in processing order, reverse the
record list, and return it with its length as `total_replacements`.  The
loop state is (anonymized text, record list, number of generator calls). -/
def anonymize (gen : Nat → String → List Char)
    (detection_result : DetectionResult) : AnonymizationResult :=
  if !detection_result.has_pii then
    { original_text := detection_result.text,
      anonymized_text := detection_result.text,
      replacements := [], total_replacements := 0 }
  else
    let sorted_matches := List.insertionSort startGE detection_result.matches_
    let st := sorted_matches.foldl (anonStep gen) (detection_result.text, [], 0)
    let replacements := st.2.1.reverse
    { original_text := detection_result.text, anonymized_text := st.1,
      replacements := replacements, total_replacements := replacements.length }

/-- From `anonymizer.py` (`PIIAnonymizer.anonymize_text`, lines 184-205):
same rewrite loop as `anonymize` but on a bare text and match list, with no
ledger.  The loop state is (result text, number of generator calls). -/
def anonymize_text (gen : Nat → String → List Char) (text : List Char)
    (matches_ : List PIIMatch) : List Char :=
  if matches_.isEmpty then text
  else
    let sorted_matches := List.insertionSort startGE matches_
    (sorted_matches.foldl (atStep gen) (text, 0)).1

/-- From `anonymizer.py` (`PIIAnonymizer.get_replacement_mapping`, lines
207-225): build, in match order, a mapping from original value to generated
replacement, generating only for original values not yet present.  The
Python dict (insertion-ordered, string keys) is modelled as an association
list. -/
def get_replacement_mapping (gen : Nat → String → List Char)
    (detection_result : DetectionResult) : List (List Char × List Char) :=
  (detection_result.matches_.foldl (grmStep gen) ([], 0)).1

/-- Python's built-in `str.replace(old, new)` (all occurrences, scanning
left to right, non-overlapping), written with a fuel argument so that the
recursion is structural; `pyReplace` supplies fuel `s.length`, which
suffices since every step consumes at least one character of `s`. -/
def replaceLoop (pat repl : List Char) : Nat → List Char → List Char
  | 0, s => s
  | _ + 1, [] => []
  | fuel + 1, c :: rest =>
    if pat.isPrefixOf (c :: rest) then
      repl ++ replaceLoop pat repl fuel ((c :: rest).drop pat.length)
    else c :: replaceLoop pat repl fuel rest

/-- Python's `str.replace(old, new)` including the empty-pattern case
(`"ab".replace("", "X") == "XaXbX"`, inserting `new` at every boundary). -/
def pyReplace (s pat repl : List Char) : List Char :=
  if pat.isEmpty then repl ++ s.foldr (fun c acc => c :: (repl ++ acc)) []
  else replaceLoop pat repl s.length s

/-- Number of occurrences of `pat` in `s`: the number of positions of `s` at
which `pat` occurs as a prefix of the corresponding suffix. -/
def countOcc (pat s : List Char) : Nat :=
  ((List.range (s.length + 1)).filter (fun i => pat.isPrefixOf (s.drop i))).length

/-- Descending-by-key-length relation of
`sorted(mapping.items(), key=lambda x: len(x[0]), reverse=True)` in
`anonymizer.py`. -/
def keyLenGE (a b : List Char × List Char) : Prop := b.1.length ≤ a.1.length

instance : DecidableRel keyLenGE :=
  fun a b => inferInstanceAs (Decidable (b.1.length ≤ a.1.length))

instance : IsTotal (List Char × List Char) keyLenGE :=
  ⟨fun a b => Nat.le_total b.1.length a.1.length⟩

instance : IsTrans (List Char × List Char) keyLenGE :=
  ⟨fun _ _ _ h h' => Nat.le_trans h' h⟩

/-- From `anonymizer.py` (`PIIAnonymizer.anonymize_with_mapping`, lines
227-245): apply `str.replace` for every mapping entry, longest original
first (stable order among equal lengths). -/
def anonymize_with_mapping (text : List Char)
    (mapping : List (List Char × List Char)) : List Char :=
  (List.insertionSort keyLenGE mapping).foldl
    (fun result p => pyReplace result p.1 p.2) text

/-! ### Splice machinery

Auxiliary notions used to reason about the reverse-order rewrite loop: a
`SpliceStep` is one substitution `t.take start ++ repl ++ t.drop end_`;
`applyDesc` applies a start-ascending list of steps last-to-first, which is
exactly the order the rewrite loop uses; `segments` is the closed form of
the result (original text gaps interleaved with the replacements), and
`replOffset` the position at which each replacement lands. -/

/-- One pending substitution of the rewrite loop. -/
structure SpliceStep where
  start : Nat
  end_ : Nat
  repl : List Char
deriving DecidableEq, Inhabited

/-- `text[:start] + repl + text[end:]`. -/
def spliceOne (t : List Char) (s : SpliceStep) : List Char :=
  t.take s.start ++ s.repl ++ t.drop s.end_

/-- Apply a start-ascending list of splice steps in descending start order
(last step first), as the rewrite loop of `anonymize`/`anonymize_text` does. -/
def applyDesc (text : List Char) : List SpliceStep → List Char
  | [] => text
  | s :: rest => spliceOne (applyDesc text rest) s

/-- Closed form of the rewrite: the slice of the original text from `pos` to
the first step's start, then that step's replacement, and so on; after the
last step, the rest of the original text.  Every character of the original
text outside the spans appears verbatim in one of the gap slices. -/
def segments (text : List Char) : Nat → List SpliceStep → List Char
  | pos, [] => text.drop pos
  | pos, s :: rest =>
    (text.drop pos).take (s.start - pos) ++ s.repl ++ segments text s.end_ rest

/-- Offset, inside `segments text pos steps`, at which the `i`-th step's
replacement begins. -/
def replOffset : Nat → List SpliceStep → Nat → Nat
  | _, [], _ => 0
  | pos, s :: _, 0 => s.start - pos
  | pos, s :: rest, i + 1 => (s.start - pos) + s.repl.length + replOffset s.end_ rest i

/-- The splice step the rewrite loop performs for match `m` on its `k`-th
generator call. -/
def stepOf (gen : Nat → String → List Char) (k : Nat) (m : PIIMatch) : SpliceStep :=
  ⟨m.start, m.end_, generate_replacement gen k m.entity_type⟩

/-- The splice steps of a start-ascending match list, in ascending order;
the `i`-th of `n` matches is processed `n - 1 - i`-th by the descending
loop, hence receives the generator's call number `n - 1 - i`. -/
def ascSteps (gen : Nat → String → List Char) : List PIIMatch → List SpliceStep
  | [] => []
  | m :: tail => stepOf gen tail.length m :: ascSteps gen tail

/-- The matches in the ascending order that the rewrite loop's descending
(stable) sort induces. -/
def ascOrder (ms : List PIIMatch) : List PIIMatch :=
  (List.insertionSort startGE ms).reverse

/-- Recursive form of the rewrite loop of `anonymize_text`: fold the splice
over a descending match list, counting generator calls. -/
def descFold (gen : Nat → String → List Char) (t : List Char) (k : Nat) :
    List PIIMatch → List Char
  | [] => t
  | m :: rest => descFold gen (spliceOne t (stepOf gen k m)) (k + 1) rest

/-- The replacement record `anonymize` appends for match `m` on its `k`-th
generator call. -/
def recOf (gen : Nat → String → List Char) (k : Nat) (m : PIIMatch) : ReplacementInfo :=
  { entity_type := m.entity_type, original_value := m.text,
    replacement_value := generate_replacement gen k m.entity_type,
    pos_start := m.start, pos_end := m.end_, confidence_score := m.score }

/-- The replacement records `anonymize` accumulates over a descending match
list, in processing order. -/
def descRecs (gen : Nat → String → List Char) : Nat → List PIIMatch → List ReplacementInfo
  | _, [] => []
  | k, m :: rest => recOf gen k m :: descRecs gen (k + 1) rest

/-- Two matches whose `[start, end)` spans do not intersect. -/
def spanDisjoint (a b : PIIMatch) : Prop := a.end_ ≤ b.start ∨ b.end_ ≤ a.start

instance : DecidableRel spanDisjoint :=
  fun a b => inferInstanceAs (Decidable (a.end_ ≤ b.start ∨ b.end_ ≤ a.start))

/-- Two analyzer results whose `[start, end)` spans do not intersect. -/
def rrDisjoint (a b : RecognizerResult) : Prop := a.end_ ≤ b.start ∨ b.end_ ≤ a.start

instance : DecidableRel rrDisjoint :=
  fun a b => inferInstanceAs (Decidable (a.end_ ≤ b.start ∨ b.end_ ≤ a.start))

/-! ### Support lemmas -/

/-- The 27 codes of `US_PII_TYPES` are pairwise distinct, so first-match
lookup in the association list agrees with Python's (last-wins) dict
comprehension. -/
theorem PII_TYPE_MAP_keys_nodup : (PII_TYPE_MAP.map Prod.fst).Nodup := by decide

theorem pyStrip_nil_of_all_space {s : List Char} (h : ∀ c ∈ s, isPythonSpace c) :
    pyStrip s = [] := by
  have h1 : s.dropWhile isPythonSpace = [] := List.dropWhile_eq_nil_iff.mpr h
  simp [pyStrip, h1]

/-! ### Claims -/

/-- C5: for every text and empty match list, the anonymizer is a no-op: on a
detection result with no matches, `anonymize` returns the text unchanged
together with an empty ledger and zero `total_replacements` (and raises no
error — the embedded function returns normally), and `anonymize_text` on an
empty match list returns the text unchanged. -/
theorem claim5_empty_matches_noop (gen : Nat → String → List Char)
    (dr : DetectionResult) (h : dr.matches_ = []) :
    anonymize gen dr =
      { original_text := dr.text, anonymized_text := dr.text,
        replacements := [], total_replacements := 0 }
    ∧ ∀ text, anonymize_text gen text [] = text := by
  refine ⟨?_, fun text => by simp [anonymize_text]⟩
  cases hpi : dr.has_pii with
  | false => simp [anonymize, hpi]
  | true => simp [anonymize, hpi, h]

/-- Witness for C5 at a concrete detection result and text. -/
theorem claim5_witness :
    anonymize (fun _ _ => "Z".toList)
        { text := "hello".toList, matches_ := [], total_pii_count := 0,
          pii_types_found := [] } =
      { original_text := "hello".toList, anonymized_text := "hello".toList,
        replacements := [], total_replacements := 0 }
    ∧ anonymize_text (fun _ _ => "Z".toList) "hello".toList [] = "hello".toList := by
  have h := claim5_empty_matches_noop (fun _ _ => "Z".toList)
    { text := "hello".toList, matches_ := [], total_pii_count := 0,
      pii_types_found := [] } rfl
  exact ⟨h.1, h.2 "hello".toList⟩

/-- C7: for every entity type with no registered replacement generator,
`_generate_replacement` returns exactly the placeholder
`[REDACTED_<entity_type>]` (and does not fail — the embedded function
returns normally). -/
theorem claim7_redacted_placeholder (gen : Nat → String → List Char) (k : Nat)
    (entity_type : String) (h : entity_type ∉ replacement_generator_keys) :
    generate_replacement gen k entity_type
      = ("[REDACTED_" ++ entity_type ++ "]").toList := by
  unfold generate_replacement
  rw [if_neg h]

/-- Witness for C7 at the unregistered entity type `UNKNOWN_TYPE` (the one
exercised by the repository's own test suite). -/
theorem claim7_witness :
    "UNKNOWN_TYPE" ∉ replacement_generator_keys
    ∧ generate_replacement (fun _ _ => []) 0 "UNKNOWN_TYPE"
        = "[REDACTED_UNKNOWN_TYPE]".toList :=
  ⟨by decide,
   (claim7_redacted_placeholder (fun _ _ => []) 0 "UNKNOWN_TYPE" (by decide)).trans
     (by decide)⟩

/-- C8: for every empty or whitespace-only input text, `detect` returns a
result with no matches, a zero PII count and an empty found-types set, and
raises no error (it returns `Except.ok` even when the analyzer is absent,
since the blank-text guard precedes the analyzer check). -/
theorem claim8_blank_text_empty_result
    (analyzer : Option (List Char → List RecognizerResult))
    (score_threshold : ℚ) (text : List Char)
    (h : ∀ c ∈ text, isPythonSpace c) :
    detect analyzer score_threshold text =
      .ok { text := text, matches_ := [], total_pii_count := 0,
            pii_types_found := [] } := by
  unfold detect
  rw [pyStrip_nil_of_all_space h]
  simp

/-- Witness for C8 at the whitespace-only text `"  \t"` with no analyzer
loaded. -/
theorem claim8_witness :
    detect none 0 "  \t".toList =
      .ok { text := "  \t".toList, matches_ := [], total_pii_count := 0,
            pii_types_found := [] } :=
  claim8_blank_text_empty_result none 0 "  \t".toList (by decide)

/-- C10: `PIIMatch` metadata lookup is keyed by the internal `PIIType.code`:
entity names that are Presidio entity names but not codes (`US_SSN`,
`EMAIL_ADDRESS`, `PERSON`, `PHONE_NUMBER`, `US_PASSPORT`) resolve to `none`,
while names that coincide with a code (`CREDIT_CARD`, `IP_ADDRESS`,
`STATE_ID`, `MEDICAL_RECORD`) resolve to the `PIIType` bearing that code. -/
theorem claim10_pii_type_keyed_by_code (t : List Char) (s e : Nat) (sc : ℚ) :
    (PIIMatch.make "US_SSN" t s e sc).pii_type = none
    ∧ (PIIMatch.make "EMAIL_ADDRESS" t s e sc).pii_type = none
    ∧ (PIIMatch.make "PERSON" t s e sc).pii_type = none
    ∧ (PIIMatch.make "PHONE_NUMBER" t s e sc).pii_type = none
    ∧ (PIIMatch.make "US_PASSPORT" t s e sc).pii_type = none
    ∧ ((PIIMatch.make "CREDIT_CARD" t s e sc).pii_type.map PIIType.code)
        = some "CREDIT_CARD"
    ∧ ((PIIMatch.make "IP_ADDRESS" t s e sc).pii_type.map PIIType.code)
        = some "IP_ADDRESS"
    ∧ ((PIIMatch.make "STATE_ID" t s e sc).pii_type.map PIIType.code)
        = some "STATE_ID"
    ∧ ((PIIMatch.make "MEDICAL_RECORD" t s e sc).pii_type.map PIIType.code)
        = some "MEDICAL_RECORD" :=
  ⟨rfl, rfl, rfl, rfl, rfl, rfl, rfl, rfl, rfl⟩

/-- C9: detection is monotone in the score threshold: for a fixed analyzer
and text, every match returned at threshold `t2` is also returned at any
threshold `t1 ≤ t2`. -/
theorem claim9_threshold_monotone (f : List Char → List RecognizerResult)
    (t1 t2 : ℚ) (text : List Char) (r1 r2 : DetectionResult)
    (hle : t1 ≤ t2)
    (h1 : detect (some f) t1 text = .ok r1)
    (h2 : detect (some f) t2 text = .ok r2) :
    ∀ m ∈ r2.matches_, m ∈ r1.matches_ := by
  unfold detect at h1 h2
  by_cases hb : (text.isEmpty || (pyStrip text).isEmpty)
  · rw [if_pos hb] at h1 h2
    simp only [Except.ok.injEq] at h2
    subst h2
    intro m hm
    exact absurd hm (by simp)
  · rw [if_neg hb] at h1 h2
    simp only [Except.ok.injEq] at h1 h2
    subst h1; subst h2
    intro m hm
    simp only [List.mem_insertionSort, List.mem_map] at hm ⊢
    obtain ⟨r, hr, rfl⟩ := hm
    refine ⟨r, ?_, rfl⟩
    rw [List.mem_filter] at hr ⊢
    exact ⟨hr.1, decide_eq_true (le_trans hle (of_decide_eq_true hr.2))⟩

/-- Witness for C9: at thresholds 0 ≤ 1 on a two-result analyzer (scores 1
and 0), the single match surviving threshold 1 is among the two matches
returned at threshold 0. -/
theorem claim9_witness :
    PIIMatch.make "A" "ab".toList 0 2 1 ∈
      [PIIMatch.make "A" "ab".toList 0 2 1,
       PIIMatch.make "B" "d".toList 3 4 0] :=
  claim9_threshold_monotone
    (fun _ => [{ entity_type := "A", start := 0, end_ := 2, score := 1 },
               { entity_type := "B", start := 3, end_ := 4, score := 0 }])
    0 1 "abcd".toList
    { text := "abcd".toList,
      matches_ := [PIIMatch.make "A" "ab".toList 0 2 1,
                   PIIMatch.make "B" "d".toList 3 4 0],
      total_pii_count := 2, pii_types_found := ["A", "B"] }
    { text := "abcd".toList,
      matches_ := [PIIMatch.make "A" "ab".toList 0 2 1],
      total_pii_count := 1, pii_types_found := ["A"] }
    (by norm_num) (by rfl) (by rfl)
    (PIIMatch.make "A" "ab".toList 0 2 1) (by simp)

/-- C2 (amended): the match list `detect` returns is always sorted ascending
by `start`; it is non-overlapping provided the analyzer's results are
pairwise non-overlapping — `detect` itself performs no overlap removal
(see `claim2_counterexample`). -/
theorem claim2_sorted_and_disjoint_if_analyzer_disjoint
    (f : List Char → List RecognizerResult) (score_threshold : ℚ)
    (text : List Char) (r : DetectionResult)
    (h : detect (some f) score_threshold text = .ok r) :
    r.matches_.Pairwise startLE
    ∧ ((f text).Pairwise rrDisjoint → r.matches_.Pairwise spanDisjoint) := by
  unfold detect at h
  by_cases hb : (text.isEmpty || (pyStrip text).isEmpty)
  · rw [if_pos hb] at h
    simp only [Except.ok.injEq] at h
    subst h
    exact ⟨List.Pairwise.nil, fun _ => List.Pairwise.nil⟩
  · rw [if_neg hb] at h
    simp only [Except.ok.injEq] at h
    subst h
    refine ⟨List.sorted_insertionSort startLE _, fun hdisj => ?_⟩
    have h1 : (((f text).filter
        (fun r => decide (score_threshold ≤ r.score))).Pairwise rrDisjoint) :=
      hdisj.filter _
    refine ((List.perm_insertionSort startLE _).pairwise_iff
      (fun hab => Or.symm hab)).mpr ?_
    rw [List.pairwise_map]
    exact h1.imp (fun hab => hab)

/-- Witness for C2's amended statement at a concrete analyzer with
non-overlapping results. -/
theorem claim2_witness :
    ({ text := "abcd".toList,
       matches_ := [PIIMatch.make "A" "ab".toList 0 2 1,
                    PIIMatch.make "B" "d".toList 3 4 1],
       total_pii_count := 2,
       pii_types_found := ["A", "B"] } : DetectionResult).matches_.Pairwise startLE
    ∧ ({ text := "abcd".toList,
         matches_ := [PIIMatch.make "A" "ab".toList 0 2 1,
                      PIIMatch.make "B" "d".toList 3 4 1],
         total_pii_count := 2,
         pii_types_found := ["A", "B"] } : DetectionResult).matches_.Pairwise spanDisjoint :=
  have h := claim2_sorted_and_disjoint_if_analyzer_disjoint
    (fun _ => [{ entity_type := "A", start := 0, end_ := 2, score := 1 },
               { entity_type := "B", start := 3, end_ := 4, score := 1 }])
    0 "abcd".toList
    { text := "abcd".toList,
      matches_ := [PIIMatch.make "A" "ab".toList 0 2 1,
                   PIIMatch.make "B" "d".toList 3 4 1],
      total_pii_count := 2, pii_types_found := ["A", "B"] }
    (by rfl)
  ⟨h.1, h.2 (by decide)⟩

/-- C2 counterexample: `detect` performs no overlap resolution — with an
analyzer returning the overlapping spans `[0,5)` and `[3,8)` (as Presidio
can for distinct entity types), `detect` returns both, so the returned
match sequence is not pairwise non-overlapping. -/
theorem claim2_counterexample :
    detect (some (fun _ => [{ entity_type := "A", start := 0, end_ := 5, score := 1 },
                            { entity_type := "B", start := 3, end_ := 8, score := 1 }]))
        0 "abcdefgh".toList
      = .ok { text := "abcdefgh".toList,
              matches_ := [PIIMatch.make "A" "abcde".toList 0 5 1,
                           PIIMatch.make "B" "defgh".toList 3 8 1],
              total_pii_count := 2, pii_types_found := ["A", "B"] }
    ∧ ¬ List.Pairwise spanDisjoint
        [PIIMatch.make "A" "abcde".toList 0 5 1,
         PIIMatch.make "B" "defgh".toList 3 8 1] :=
  ⟨by rfl, by decide⟩

/-- C3 (amended): the anonymizer performs no span validation at all: there
is no error path (the embedded functions are total because the source
contains no `raise`), and a match whose `end` exceeds the text length is
simply clamped by Python's slice semantics — for a single such match the
result is `text[:start]` followed by the replacement, with the tail of the
text silently consumed. -/
theorem claim3_no_validation_clamped_splice (gen : Nat → String → List Char)
    (text : List Char) (m : PIIMatch) (h : text.length ≤ m.end_) :
    anonymize_text gen text [m]
      = text.take m.start ++ generate_replacement gen 0 m.entity_type := by
  unfold anonymize_text
  have hd : text.drop m.end_ = [] := List.drop_eq_nil_of_le h
  simp [List.insertionSort, List.orderedInsert, atStep, hd]

/-- Witness for C3's amended statement at a concrete out-of-range match. -/
theorem claim3_witness :
    ("abcde".toList).length ≤ (PIIMatch.make "PERSON" "b".toList 1 10 1).end_
    ∧ anonymize_text (fun _ _ => "XY".toList) "abcde".toList
        [PIIMatch.make "PERSON" "b".toList 1 10 1]
      = ("abcde".toList).take (PIIMatch.make "PERSON" "b".toList 1 10 1).start
        ++ generate_replacement (fun _ _ => "XY".toList) 0
             (PIIMatch.make "PERSON" "b".toList 1 10 1).entity_type :=
  ⟨by decide,
   claim3_no_validation_clamped_splice (fun _ _ => "XY".toList) "abcde".toList
     (PIIMatch.make "PERSON" "b".toList 1 10 1) (by decide)⟩

/-- C3 counterexample: on the text `"abcde"` and a match with span `[1,10)`
(whose `end` exceeds the text length 5), `anonymize_text` raises no
`OverlappingOrOutOfRangeMatch` error — no such error exists anywhere in the
code — and returns the rewrite `"aX"`, which is neither the untouched input
nor a span-respecting substitution: the claimed validation does not happen. -/
theorem claim3_counterexample :
    ("abcde".toList).length < (PIIMatch.make "PERSON" "b".toList 1 10 1).end_
    ∧ anonymize_text (fun _ _ => "X".toList) "abcde".toList
        [PIIMatch.make "PERSON" "b".toList 1 10 1] = "aX".toList
    ∧ "aX".toList ≠ "abcde".toList :=
  ⟨by decide, by decide, by decide⟩

/-- Keys of an association list: membership matches `lookup` success. -/
theorem lookup_isSome_iff_mem_keys (t : List Char)
    (acc : List (List Char × List Char)) :
    (acc.lookup t).isSome ↔ t ∈ acc.map Prod.fst := by
  induction acc with
  | nil => simp
  | cons p rest ih =>
    obtain ⟨k, v⟩ := p
    by_cases h : t = k
    · subst h; simp [List.lookup]
    · simp only [List.lookup, beq_false_of_ne h, List.map_cons, List.mem_cons]
      simp [ih, h]

/-- Keys already present in the accumulator survive the
`get_replacement_mapping` fold. -/
theorem grm_fold_keys_mono (gen : Nat → String → List Char) :
    ∀ (l : List PIIMatch) (acc : List (List Char × List Char) × Nat)
      (t : List Char), t ∈ acc.1.map Prod.fst →
      t ∈ (l.foldl (grmStep gen) acc).1.map Prod.fst := by
  intro l
  induction l with
  | nil => intro acc t h; simpa using h
  | cons m rest ih =>
    intro acc t h
    rw [List.foldl_cons]
    apply ih
    unfold grmStep
    by_cases hc : (acc.1.lookup m.text).isSome = true
    · simpa [hc] using h
    · rw [if_neg hc]
      simp only [List.map_append, List.mem_append]
      exact Or.inl h

/-- The `get_replacement_mapping` fold preserves key distinctness. -/
theorem grm_fold_keys_nodup (gen : Nat → String → List Char) :
    ∀ (l : List PIIMatch) (acc : List (List Char × List Char) × Nat),
      (acc.1.map Prod.fst).Nodup →
      ((l.foldl (grmStep gen) acc).1.map Prod.fst).Nodup := by
  intro l
  induction l with
  | nil => intro acc h; simpa using h
  | cons m rest ih =>
    intro acc h
    rw [List.foldl_cons]
    apply ih
    unfold grmStep
    by_cases hc : (acc.1.lookup m.text).isSome = true
    · simpa [hc] using h
    · have hnot : m.text ∉ acc.1.map Prod.fst := by
        intro hmem
        exact hc ((lookup_isSome_iff_mem_keys m.text acc.1).mpr hmem)
      rw [if_neg hc]
      simp only [List.map_append, List.map_cons, List.map_nil]
      rw [List.nodup_append]
      exact ⟨h, List.nodup_singleton _, by simpa using hnot⟩

/-- `List.count` over `List Char` keys does not depend on which of the two
definitionally different `BEq (List Char)` instances is used. -/
theorem listChar_count_inst (t : List Char) (l : List (List Char)) :
    l.count t = @List.count _ instBEqOfDecidableEq t l := by
  induction l with
  | nil => rfl
  | cons x xs ih => by_cases h : x = t <;> simp [List.count_cons, h, ih]

/-- Every processed match's text ends up among the mapping's keys. -/
theorem grm_fold_mem (gen : Nat → String → List Char) :
    ∀ (l : List PIIMatch) (acc : List (List Char × List Char) × Nat)
      (m : PIIMatch), m ∈ l →
      m.text ∈ (l.foldl (grmStep gen) acc).1.map Prod.fst := by
  intro l
  induction l with
  | nil => intro acc m h; exact absurd h (by simp)
  | cons m' rest ih =>
    intro acc m hm
    rw [List.foldl_cons]
    rcases List.mem_cons.mp hm with rfl | hmem
    · apply grm_fold_keys_mono
      unfold grmStep
      by_cases hc : (acc.1.lookup m.text).isSome = true
      · simpa [hc] using (lookup_isSome_iff_mem_keys m.text acc.1).mp hc
      · simp [hc]
    · exact ih _ m hmem

/-- C6: the replacement mapping contains exactly one entry per distinct
original value (even when the same substring occurs as several matches), and
applying a mapping replaces every occurrence of each original key with the
same replacement value — in particular `{"John Doe": "Jane Smith"}` applied
to `"John Doe and John Doe again"` yields
`"Jane Smith and Jane Smith again"` with zero residual occurrences of
`"John Doe"`. -/
theorem claim6_mapping_consistency :
    (∀ (gen : Nat → String → List Char) (dr : DetectionResult) (m : PIIMatch),
        m ∈ dr.matches_ →
        ((get_replacement_mapping gen dr).map Prod.fst).count m.text = 1)
    ∧ anonymize_with_mapping "John Doe and John Doe again".toList
        [("John Doe".toList, "Jane Smith".toList)]
      = "Jane Smith and Jane Smith again".toList
    ∧ countOcc "John Doe".toList "Jane Smith and Jane Smith again".toList = 0 := by
  refine ⟨?_, by decide, by decide⟩
  intro gen dr m hm
  unfold get_replacement_mapping
  rw [listChar_count_inst]
  exact List.count_eq_one_of_mem
    (grm_fold_keys_nodup gen dr.matches_ ([], 0) (by simp))
    (grm_fold_mem gen dr.matches_ ([], 0) m hm)

/-- Witness for C6 at a detection result containing the same original
substring twice. -/
theorem claim6_witness :
    ((get_replacement_mapping (fun _ _ => "Jane Smith".toList)
        { text := "John Doe and John Doe again".toList,
          matches_ := [PIIMatch.make "PERSON" "John Doe".toList 0 8 1,
                       PIIMatch.make "PERSON" "John Doe".toList 13 21 1],
          total_pii_count := 2,
          pii_types_found := ["PERSON"] }).map Prod.fst).count
      "John Doe".toList = 1 :=
  claim6_mapping_consistency.1 (fun _ _ => "Jane Smith".toList)
    { text := "John Doe and John Doe again".toList,
      matches_ := [PIIMatch.make "PERSON" "John Doe".toList 0 8 1,
                   PIIMatch.make "PERSON" "John Doe".toList 13 21 1],
      total_pii_count := 2,
      pii_types_found := ["PERSON"] }
    (PIIMatch.make "PERSON" "John Doe".toList 0 8 1) (by simp)

/-- The record component of the `anonymize` fold is the accumulator followed
by one record per processed match, in processing order. -/
theorem anonFold_records (gen : Nat → String → List Char) :
    ∀ (l : List PIIMatch) (t : List Char) (acc : List ReplacementInfo) (k : Nat),
      (l.foldl (anonStep gen) (t, acc, k)).2.1 = acc ++ descRecs gen k l := by
  intro l
  induction l with
  | nil => intro t acc k; simp [descRecs]
  | cons m rest ih =>
    intro t acc k
    rw [List.foldl_cons,
      show anonStep gen (t, acc, k) m
          = (t.take m.start ++ generate_replacement gen k m.entity_type
               ++ t.drop m.end_, acc ++ [recOf gen k m], k + 1) from rfl,
      ih]
    simp [descRecs]

/-- The start positions of the accumulated records are those of the
processed matches. -/
theorem descRecs_map_pos (gen : Nat → String → List Char) :
    ∀ (k : Nat) (l : List PIIMatch),
      (descRecs gen k l).map (fun r => r.pos_start) = l.map (fun m => m.start) := by
  intro k l
  induction l generalizing k with
  | nil => simp [descRecs]
  | cons m rest ih => simp [descRecs, recOf, ih]

/-- The match-derived fields of the accumulated records are exactly those of
the processed matches, in processing order. -/
theorem descRecs_map_quint (gen : Nat → String → List Char) :
    ∀ (k : Nat) (l : List PIIMatch),
      (descRecs gen k l).map
          (fun r => (r.entity_type, r.original_value, r.pos_start, r.pos_end,
            r.confidence_score))
        = l.map (fun m => (m.entity_type, m.text, m.start, m.end_, m.score)) := by
  intro k l
  induction l generalizing k with
  | nil => simp [descRecs]
  | cons m rest ih => simp [descRecs, recOf, ih]

/-- C4: for every detection result (with the `detect` invariants that the
count equals the number of matches, and non-overlapping matches), the ledger
of `anonymize` has exactly one record per match (its match-derived fields
are a permutation of the matches' fields), is sorted ascending by original
start offset even though the rewrite processed matches by descending start,
and `total_replacements` equals the ledger's length. -/
theorem claim4_ledger_sorted_one_per_match (gen : Nat → String → List Char)
    (dr : DetectionResult)
    (_hdisj : dr.matches_.Pairwise spanDisjoint)
    (hc : dr.total_pii_count = dr.matches_.length) :
    ((anonymize gen dr).replacements.map
        (fun r => (r.entity_type, r.original_value, r.pos_start, r.pos_end,
          r.confidence_score))).Perm
      (dr.matches_.map (fun m => (m.entity_type, m.text, m.start, m.end_, m.score)))
    ∧ (anonymize gen dr).replacements.Pairwise
        (fun a b => a.pos_start ≤ b.pos_start)
    ∧ (anonymize gen dr).total_replacements
        = (anonymize gen dr).replacements.length := by
  cases hpi : dr.has_pii with
  | false =>
    have h0 : dr.matches_ = [] := by
      unfold DetectionResult.has_pii at hpi
      have := of_decide_eq_false hpi
      have hz : dr.total_pii_count = 0 := by omega
      rw [hz] at hc
      exact List.eq_nil_of_length_eq_zero hc.symm
    simp [anonymize, hpi, h0]
  | true =>
    have hrepl : (anonymize gen dr).replacements
        = (descRecs gen 0 (List.insertionSort startGE dr.matches_)).reverse := by
      unfold anonymize
      rw [hpi]
      simp only [Bool.not_true, Bool.false_eq_true, if_false]
      rw [anonFold_records]
      simp
    have htot : (anonymize gen dr).total_replacements
        = (anonymize gen dr).replacements.length := by
      unfold anonymize
      rw [hpi]
      simp
    refine ⟨?_, ?_, htot⟩
    · rw [hrepl, List.map_reverse]
      refine List.Perm.trans (List.reverse_perm _) ?_
      rw [descRecs_map_quint]
      exact (List.perm_insertionSort startGE dr.matches_).map _
    · rw [hrepl, List.pairwise_reverse]
      have h1 : ((descRecs gen 0 (List.insertionSort startGE dr.matches_)).map
          (fun r => r.pos_start)).Pairwise (fun a b => b ≤ a) := by
        rw [descRecs_map_pos]
        exact List.pairwise_map.mpr
          ((List.sorted_insertionSort startGE dr.matches_).imp (fun hab => hab))
      exact (List.pairwise_map.mp h1).imp (fun hab => hab)

/-- Witness for C4 at a concrete two-match detection result. -/
theorem claim4_witness :
    ((anonymize (fun _ _ => "xy".toList)
        { text := "abcdef".toList,
          matches_ := [PIIMatch.make "A" "a".toList 0 1 1,
                       PIIMatch.make "B" "d".toList 3 4 1],
          total_pii_count := 2,
          pii_types_found := ["A", "B"] }).replacements.map
        (fun r => (r.entity_type, r.original_value, r.pos_start, r.pos_end,
          r.confidence_score))).Perm
      ([PIIMatch.make "A" "a".toList 0 1 1,
        PIIMatch.make "B" "d".toList 3 4 1].map
        (fun m => (m.entity_type, m.text, m.start, m.end_, m.score)))
    ∧ (anonymize (fun _ _ => "xy".toList)
        { text := "abcdef".toList,
          matches_ := [PIIMatch.make "A" "a".toList 0 1 1,
                       PIIMatch.make "B" "d".toList 3 4 1],
          total_pii_count := 2,
          pii_types_found := ["A", "B"] }).replacements.Pairwise
        (fun a b => a.pos_start ≤ b.pos_start)
    ∧ (anonymize (fun _ _ => "xy".toList)
        { text := "abcdef".toList,
          matches_ := [PIIMatch.make "A" "a".toList 0 1 1,
                       PIIMatch.make "B" "d".toList 3 4 1],
          total_pii_count := 2,
          pii_types_found := ["A", "B"] }).total_replacements
        = (anonymize (fun _ _ => "xy".toList)
            { text := "abcdef".toList,
              matches_ := [PIIMatch.make "A" "a".toList 0 1 1,
                           PIIMatch.make "B" "d".toList 3 4 1],
              total_pii_count := 2,
              pii_types_found := ["A", "B"] }).replacements.length :=
  claim4_ledger_sorted_one_per_match (fun _ _ => "xy".toList)
    { text := "abcdef".toList,
      matches_ := [PIIMatch.make "A" "a".toList 0 1 1,
                   PIIMatch.make "B" "d".toList 3 4 1],
      total_pii_count := 2,
      pii_types_found := ["A", "B"] }
    (by decide) (by decide)

/-- Splitting the closed form at any position `p` left of all remaining
steps: the gap from `q` to the first start factors through `p`. -/
theorem segments_split (text : List Char) (steps : List SpliceStep) (q p : Nat)
    (hqp : q ≤ p) (hp : ∀ s ∈ steps, p ≤ s.start) :
    segments text q steps = (text.drop q).take (p - q) ++ segments text p steps := by
  cases steps with
  | nil =>
    simp only [segments]
    conv_lhs => rw [← List.take_append_drop (p - q) (text.drop q)]
    congr 1
    rw [List.drop_drop]
    congr 1
    omega
  | cons s rest =>
    have hps : p ≤ s.start := hp s (List.mem_cons_self ..)
    simp only [segments]
    have h1 : (text.drop q).take (s.start - q)
        = (text.drop q).take (p - q) ++ (text.drop p).take (s.start - p) := by
      rw [show s.start - q = (p - q) + (s.start - p) by omega, List.take_add,
        List.drop_drop, show q + (p - q) = p by omega]
    rw [h1]
    simp [List.append_assoc]

/-- The descending-order rewrite of a start-ascending, non-overlapping,
in-bounds list of splice steps equals the closed form `segments`: the
original text's gaps are preserved verbatim around the replacements. -/
theorem applyDesc_eq_segments (steps : List SpliceStep) (text : List Char)
    (hchain : steps.Pairwise (fun a b => a.end_ ≤ b.start))
    (hw : ∀ s ∈ steps, s.start ≤ s.end_)
    (hb : ∀ s ∈ steps, s.end_ ≤ text.length) :
    applyDesc text steps = segments text 0 steps := by
  induction steps with
  | nil => simp [applyDesc, segments]
  | cons s rest ih =>
    have hch := List.pairwise_cons.mp hchain
    have hse : s.start ≤ s.end_ := hw s (List.mem_cons_self ..)
    have hsl : s.end_ ≤ text.length := hb s (List.mem_cons_self ..)
    simp only [applyDesc]
    rw [ih hch.2 (fun x hx => hw x (List.mem_cons_of_mem _ hx))
      (fun x hx => hb x (List.mem_cons_of_mem _ hx))]
    rw [segments_split text rest 0 s.end_ (Nat.zero_le _) hch.1]
    simp only [List.drop_zero, Nat.sub_zero]
    unfold spliceOne
    have hlen : (text.take s.end_).length = s.end_ := List.length_take_of_le hsl
    rw [List.take_append_of_le_length (by rw [hlen]; exact hse),
      List.drop_left' hlen, List.take_take, Nat.min_eq_left hse]
    simp [segments]

/-- Dropping `replOffset` characters from the closed form and taking the
`i`-th replacement's length recovers exactly the `i`-th replacement. -/
theorem segments_drop_replOffset (text : List Char) :
    ∀ (steps : List SpliceStep) (pos i : Nat), i < steps.length →
      steps.Pairwise (fun a b => a.end_ ≤ b.start) →
      (∀ s ∈ steps, pos ≤ s.start) →
      (∀ s ∈ steps, s.start ≤ s.end_) →
      (∀ s ∈ steps, s.end_ ≤ text.length) →
      ((segments text pos steps).drop (replOffset pos steps i)).take
          (steps.getD i default).repl.length
        = (steps.getD i default).repl := by
  intro steps
  induction steps with
  | nil => intro pos i hi; exact absurd hi (by simp)
  | cons s rest ih =>
    intro pos i hi hchain hpos hw hb
    have hch := List.pairwise_cons.mp hchain
    have hsp : pos ≤ s.start := hpos s (List.mem_cons_self ..)
    have hse : s.start ≤ s.end_ := hw s (List.mem_cons_self ..)
    have hsl : s.end_ ≤ text.length := hb s (List.mem_cons_self ..)
    have hAlen : ((text.drop pos).take (s.start - pos)).length = s.start - pos := by
      rw [List.length_take_of_le]
      rw [List.length_drop]
      omega
    cases i with
    | zero =>
      simp only [segments, replOffset, List.getD_cons_zero]
      rw [List.append_assoc, List.drop_left' hAlen, List.take_left]
    | succ n =>
      simp only [segments, replOffset, List.getD_cons_succ]
      rw [List.append_assoc,
        show s.start - pos + s.repl.length + replOffset s.end_ rest n
          = ((text.drop pos).take (s.start - pos)).length
            + (s.repl.length + replOffset s.end_ rest n) by rw [hAlen]; omega]
      rw [List.drop_append, List.drop_append]
      exact ih s.end_ n (by simpa using hi) hch.2 hch.1
        (fun x hx => hw x (List.mem_cons_of_mem _ hx))
        (fun x hx => hb x (List.mem_cons_of_mem _ hx))

/-- `replOffset` equals, over `ℤ`, the step's original start shifted by the
cumulative length difference of the replacements at earlier indices. -/
theorem replOffset_eq_int :
    ∀ (steps : List SpliceStep) (pos i : Nat), i < steps.length →
      steps.Pairwise (fun a b => a.end_ ≤ b.start) →
      (∀ s ∈ steps, pos ≤ s.start) →
      (∀ s ∈ steps, s.start ≤ s.end_) →
      (replOffset pos steps i : ℤ)
        = ((steps.getD i default).start : ℤ) - (pos : ℤ)
          + ∑ j in Finset.range i,
              (((steps.getD j default).repl.length : ℤ)
                - (((steps.getD j default).end_ : ℤ)
                    - ((steps.getD j default).start : ℤ))) := by
  intro steps
  induction steps with
  | nil => intro pos i hi; exact absurd hi (by simp)
  | cons s rest ih =>
    intro pos i hi hchain hpos hw
    have hch := List.pairwise_cons.mp hchain
    have hsp : pos ≤ s.start := hpos s (List.mem_cons_self ..)
    have hse : s.start ≤ s.end_ := hw s (List.mem_cons_self ..)
    cases i with
    | zero =>
      simp only [replOffset, List.getD_cons_zero, Finset.range_zero,
        Finset.sum_empty]
      omega
    | succ n =>
      have hn : n < rest.length := by simpa using hi
      have hrec := ih s.end_ n hn hch.2 hch.1
        (fun x hx => hw x (List.mem_cons_of_mem _ hx))
      simp only [replOffset, List.getD_cons_succ]
      rw [Finset.sum_range_succ']
      simp only [List.getD_cons_succ, List.getD_cons_zero]
      set S : ℤ := ∑ j in Finset.range n,
        (((rest.getD j default).repl.length : ℤ)
          - (((rest.getD j default).end_ : ℤ)
              - ((rest.getD j default).start : ℤ))) with hS
      omega

theorem ascSteps_length (gen : Nat → String → List Char) :
    ∀ l : List PIIMatch, (ascSteps gen l).length = l.length := by
  intro l
  induction l with
  | nil => rfl
  | cons m tail ih => simp [ascSteps, ih]

/-- Every splice step of `ascSteps` carries the span of a source match. -/
theorem ascSteps_mem (gen : Nat → String → List Char) :
    ∀ (l : List PIIMatch) (s : SpliceStep), s ∈ ascSteps gen l →
      ∃ m ∈ l, s.start = m.start ∧ s.end_ = m.end_ := by
  intro l
  induction l with
  | nil => intro s hs; exact absurd hs (by simp [ascSteps])
  | cons m tail ih =>
    intro s hs
    rcases List.mem_cons.mp hs with rfl | hs'
    · exact ⟨m, List.mem_cons_self .., rfl, rfl⟩
    · obtain ⟨m', hm', h1, h2⟩ := ih s hs'
      exact ⟨m', List.mem_cons_of_mem _ hm', h1, h2⟩

/-- `ascSteps` preserves the ascending non-overlap chain. -/
theorem ascSteps_pairwise (gen : Nat → String → List Char) :
    ∀ l : List PIIMatch,
      l.Pairwise (fun a b : PIIMatch => a.end_ ≤ b.start) →
      (ascSteps gen l).Pairwise (fun a b : SpliceStep => a.end_ ≤ b.start) := by
  intro l
  induction l with
  | nil => intro _; exact List.Pairwise.nil
  | cons m tail ih =>
    intro h
    have hc := List.pairwise_cons.mp h
    refine List.pairwise_cons.mpr ⟨?_, ih hc.2⟩
    intro s hs
    obtain ⟨m', hm', h1, _⟩ := ascSteps_mem gen tail s hs
    rw [h1]
    exact hc.1 m' hm'

theorem ascSteps_getD (gen : Nat → String → List Char) :
    ∀ (l : List PIIMatch) (i : Nat), i < l.length →
      (ascSteps gen l).getD i default
        = stepOf gen (l.length - 1 - i) (l.getD i default) := by
  intro l
  induction l with
  | nil => intro i hi; exact absurd hi (by simp)
  | cons m tail ih =>
    intro i hi
    cases i with
    | zero => simp [ascSteps]
    | succ n =>
      simp only [ascSteps, List.getD_cons_succ, List.length_cons]
      rw [ih n (by simpa using hi)]
      congr 1
      omega

/-- The loop of `anonymize_text` is `descFold`. -/
theorem foldl_atStep_eq_descFold (gen : Nat → String → List Char) :
    ∀ (l : List PIIMatch) (t : List Char) (k : Nat),
      (l.foldl (atStep gen) (t, k)).1 = descFold gen t k l := by
  intro l
  induction l with
  | nil => intro t k; rfl
  | cons m rest ih =>
    intro t k
    rw [List.foldl_cons]
    exact ih (spliceOne t (stepOf gen k m)) (k + 1)

theorem descFold_append (gen : Nat → String → List Char) :
    ∀ (l₁ l₂ : List PIIMatch) (t : List Char) (k : Nat),
      descFold gen t k (l₁ ++ l₂)
        = descFold gen (descFold gen t k l₁) (k + l₁.length) l₂ := by
  intro l₁
  induction l₁ with
  | nil => intro l₂ t k; simp [descFold]
  | cons m l1 ih =>
    intro l₂ t k
    simp only [List.cons_append, descFold, List.length_cons, List.append_eq]
    rw [ih]
    congr 1
    omega

/-- Folding the splice over the reverse of an ascending list (i.e. in
descending order, with generator call numbers counted from the last match)
equals applying the ascending splice steps last-to-first. -/
theorem descFold_reverse_eq_applyDesc (gen : Nat → String → List Char) :
    ∀ (l : List PIIMatch) (t : List Char),
      descFold gen t 0 l.reverse = applyDesc t (ascSteps gen l) := by
  intro l
  induction l with
  | nil => intro t; rfl
  | cons m tail ih =>
    intro t
    rw [List.reverse_cons, descFold_append, ih]
    simp only [List.length_reverse, Nat.zero_add, descFold, ascSteps, applyDesc]

theorem ascOrder_perm (ms : List PIIMatch) : (ascOrder ms).Perm ms :=
  (List.reverse_perm _).trans (List.perm_insertionSort startGE ms)

/-- For pairwise non-overlapping matches of positive width, the stable
descending sort reversed (`ascOrder`) is an ascending non-overlap chain. -/
theorem ascOrder_chain (ms : List PIIMatch)
    (hdisj : ms.Pairwise spanDisjoint)
    (hw : ∀ m ∈ ms, m.start < m.end_) :
    (ascOrder ms).Pairwise (fun a b : PIIMatch => a.end_ ≤ b.start) := by
  have hsorted : (List.insertionSort startGE ms).Pairwise startGE :=
    List.sorted_insertionSort startGE ms
  have hd2 : (List.insertionSort startGE ms).Pairwise spanDisjoint :=
    ((List.perm_insertionSort startGE ms).pairwise_iff
      (fun hab => Or.symm hab)).mpr hdisj
  have hdesc : (List.insertionSort startGE ms).Pairwise
      (fun a b : PIIMatch => b.end_ ≤ a.start) := by
    refine (hsorted.and hd2).imp_of_mem ?_
    intro a b ha _ hab
    have hwa : a.start < a.end_ :=
      hw a ((List.perm_insertionSort startGE ms).mem_iff.mp ha)
    have h1 : b.start ≤ a.start := hab.1
    rcases hab.2 with h2 | h2 <;> omega
  unfold ascOrder
  rw [List.pairwise_reverse]
  exact hdesc

/-- C1: the reverse-order rewrite is position-correct.  For every generator,
text and list of matches with pairwise non-overlapping, positive-width,
in-bounds spans, `anonymize_text` equals the closed form `segments` built
over the matches in ascending start order (`ascOrder`): every character of
the original text outside the matched spans is preserved verbatim in the
gap slices of `segments`.  Moreover the `i`-th replacement (in ascending
start order, which is the order of strictly increasing starts) occupies
the offset `replOffset`, which equals — as an integer — the original start
shifted by the cumulative length difference of the replacements at
strictly earlier starts. -/
theorem claim1_rewrite_positions_correct (gen : Nat → String → List Char)
    (text : List Char) (ms : List PIIMatch)
    (hdisj : ms.Pairwise spanDisjoint)
    (hw : ∀ m ∈ ms, m.start < m.end_)
    (hb : ∀ m ∈ ms, m.end_ ≤ text.length) :
    anonymize_text gen text ms = segments text 0 (ascSteps gen (ascOrder ms))
    ∧ ∀ i, i < ms.length →
        ((anonymize_text gen text ms).drop
            (replOffset 0 (ascSteps gen (ascOrder ms)) i)).take
            ((ascSteps gen (ascOrder ms)).getD i default).repl.length
          = ((ascSteps gen (ascOrder ms)).getD i default).repl
        ∧ (replOffset 0 (ascSteps gen (ascOrder ms)) i : ℤ)
            = (((ascOrder ms).getD i default).start : ℤ)
              + ∑ j in Finset.range i,
                  ((((ascSteps gen (ascOrder ms)).getD j default).repl.length : ℤ)
                    - ((((ascOrder ms).getD j default).end_ : ℤ)
                        - (((ascOrder ms).getD j default).start : ℤ))) := by
  have hperm : (ascOrder ms).Perm ms := ascOrder_perm ms
  have hchainA := ascOrder_chain ms hdisj hw
  have hchainS := ascSteps_pairwise gen (ascOrder ms) hchainA
  have hmemS : ∀ s ∈ ascSteps gen (ascOrder ms),
      s.start ≤ s.end_ ∧ s.end_ ≤ text.length := by
    intro s hs
    obtain ⟨m, hm, h1, h2⟩ := ascSteps_mem gen (ascOrder ms) s hs
    have hm' : m ∈ ms := hperm.subset hm
    exact ⟨by rw [h1, h2]; exact le_of_lt (hw m hm'), by rw [h2]; exact hb m hm'⟩
  have hlen : (ascSteps gen (ascOrder ms)).length = ms.length := by
    rw [ascSteps_length, hperm.length_eq]
  have hmain : anonymize_text gen text ms
      = applyDesc text (ascSteps gen (ascOrder ms)) := by
    by_cases hms : ms = []
    · subst hms
      simp [anonymize_text, ascOrder, List.insertionSort, ascSteps, applyDesc]
    · have hE : ms.isEmpty = false := by
        cases ms with
        | nil => exact absurd rfl hms
        | cons _ _ => rfl
      unfold anonymize_text
      rw [hE]
      simp only [Bool.false_eq_true, if_false]
      rw [foldl_atStep_eq_descFold,
        show List.insertionSort startGE ms = (ascOrder ms).reverse by
          unfold ascOrder; rw [List.reverse_reverse],
        descFold_reverse_eq_applyDesc]
  have happly : applyDesc text (ascSteps gen (ascOrder ms))
      = segments text 0 (ascSteps gen (ascOrder ms)) :=
    applyDesc_eq_segments _ _ hchainS (fun s hs => (hmemS s hs).1)
      (fun s hs => (hmemS s hs).2)
  refine ⟨hmain.trans happly, ?_⟩
  intro i hi
  have hi' : i < (ascSteps gen (ascOrder ms)).length := by rw [hlen]; exact hi
  have hiA : i < (ascOrder ms).length := by
    rw [hperm.length_eq]; exact hi
  constructor
  · rw [hmain, happly]
    exact segments_drop_replOffset text (ascSteps gen (ascOrder ms)) 0 i hi'
      hchainS (fun s _ => Nat.zero_le _) (fun s hs => (hmemS s hs).1)
      (fun s hs => (hmemS s hs).2)
  · rw [replOffset_eq_int (ascSteps gen (ascOrder ms)) 0 i hi' hchainS
      (fun s _ => Nat.zero_le _) (fun s hs => (hmemS s hs).1)]
    have hterm : ∀ j ∈ Finset.range i,
        (((ascSteps gen (ascOrder ms)).getD j default).repl.length : ℤ)
          - ((((ascSteps gen (ascOrder ms)).getD j default).end_ : ℤ)
              - (((ascSteps gen (ascOrder ms)).getD j default).start : ℤ))
        = (((ascSteps gen (ascOrder ms)).getD j default).repl.length : ℤ)
          - ((((ascOrder ms).getD j default).end_ : ℤ)
              - (((ascOrder ms).getD j default).start : ℤ)) := by
      intro j hj
      have hjA : j < (ascOrder ms).length :=
        lt_trans (Finset.mem_range.mp hj) hiA
      rw [ascSteps_getD gen (ascOrder ms) j hjA]
      simp [stepOf]
    rw [Finset.sum_congr rfl hterm, ascSteps_getD gen (ascOrder ms) i hiA]
    simp [stepOf]

/-- Witness for C1 at a concrete unsorted two-match list with replacements
of different lengths. -/
theorem claim1_witness :
    anonymize_text (fun k _ => if k = 0 then "XY".toList else "Z".toList)
        "abcdefgh".toList
        [PIIMatch.make "B" "fg".toList 5 7 1, PIIMatch.make "A" "bc".toList 1 3 1]
      = segments "abcdefgh".toList 0
          (ascSteps (fun k _ => if k = 0 then "XY".toList else "Z".toList)
            (ascOrder [PIIMatch.make "B" "fg".toList 5 7 1,
                       PIIMatch.make "A" "bc".toList 1 3 1])) :=
  (claim1_rewrite_positions_correct
    (fun k _ => if k = 0 then "XY".toList else "Z".toList)
    "abcdefgh".toList
    [PIIMatch.make "B" "fg".toList 5 7 1, PIIMatch.make "A" "bc".toList 1 3 1]
    (by decide) (by decide) (by decide)).1

end PdfPii
